import Mathlib

/-!
# Verification of the browser-sdk correlation core

Shallow embedding of the repository's correlation core:

* `requestCollection` (request lifecycle tracker): `RequestDetails`,
  `RequestEvent`, `trackFetch`'s settle handler, `isRejected`, `isServerError`;
* `userActionCollection` (activity correlator and interaction detector):
  `trackPageChanges`' per-event step, the `newUserAction` timer state machine,
  the report layer of `startUserActionCollection`, and the element-content
  extraction helpers (`strLengthLimit`, `iterateContentCandidates`,
  `getElementContent`).

Timestamps (`performance.now()` values) are modelled as natural numbers.
JavaScript strings inspected character-by-character (element content) are
modelled as `List Char`; strings only compared for equality stay `String`.
-/

/-! ## Request lifecycle tracker (requestCollection.ts) -/

inductive RequestType where
  | FETCH
  | XHR
deriving DecidableEq

inductive RequestEventKind where
  | Start
  | End
deriving DecidableEq

structure RequestDetails where
  type : RequestType
  method : String
  url : String
  status : Option Nat
  response : Option String
  responseType : Option String
  startTime : Nat
  duration : Nat
  traceId : Option Nat
deriving DecidableEq

structure RequestEvent where
  kind : RequestEventKind
  details : RequestDetails
  requestId : String
deriving DecidableEq

/-- `isRejected` from requestCollection:
`request.status === 0 && request.responseType !== 'opaque'`.
An absent status (`undefined`) is not `=== 0`; an absent responseType is
`!== 'opaque'`. -/
def isRejected (request : RequestDetails) : Bool :=
  request.status == some 0 && request.responseType != some "opaque"

/-- `isServerError` from requestCollection:
`typeof request.status === 'number' && request.status >= 500`. -/
def isServerError (request : RequestDetails) : Bool :=
  match request.status with
  | some s => decide (500 ≤ s)
  | none => false

/-- A JavaScript error value as seen by the fetch tracker's rejection
handler: only its renderable stack matters here. -/
structure JsError where
  stack : String
deriving DecidableEq

/-- Modelled from the spec: stack-trace computation and rendering
(`computeStackTrace` from tracekit and `toStackTraceString` from
errorCollection are not under src). The spec treats them as out-of-scope
collaborators that turn a caught error into a textual description, so the
model renders the error's stack text. -/
def toStackTraceString (error : JsError) : String :=
  error.stack

/-- A settled fetch `Response`: HTTP status, response type, and the result of
`response.clone().text()` — either the body text or the message of the
exception the read threw. -/
structure FetchResponse where
  status : Nat
  type : String
  bodyText : Except String String

/-- How the promise returned by the underlying `fetch` settles: rejected with
an error, or resolved with a response. -/
inductive FetchOutcome where
  | rejected (error : JsError)
  | resolved (response : FetchResponse)

/-- The per-call data `trackFetch` captures before dispatching the underlying
call: method, normalized url, start time, optional trace id, fresh request
id. -/
structure FetchContext where
  method : String
  url : String
  startTime : Nat
  traceId : Option Nat
  requestId : String
deriving DecidableEq

/-- The `reportFetch` settle handler of `trackFetch`: builds the single
terminal `RequestEnd` event. A rejection (an error value, recognized by
`'stack' in response || response instanceof Error`) is reported with
`status: 0` and the rendered stack trace in place of a body; a resolved
response is reported with its status and body text, where a failing body
read degrades to `Unable to retrieve response: <e>`. -/
def reportFetch (ctx : FetchContext) (now : Nat) (outcome : FetchOutcome) : RequestEvent :=
  match outcome with
  | .rejected error =>
    { requestId := ctx.requestId
      kind := .End
      details :=
        { type := .FETCH, method := ctx.method, url := ctx.url
          status := some 0
          response := some (toStackTraceString error)
          responseType := none
          startTime := ctx.startTime, duration := now - ctx.startTime
          traceId := ctx.traceId } }
  | .resolved response =>
    { requestId := ctx.requestId
      kind := .End
      details :=
        { type := .FETCH, method := ctx.method, url := ctx.url
          status := some response.status
          response := some (match response.bodyText with
            | .ok text => text
            | .error e => "Unable to retrieve response: " ++ e)
          responseType := some response.type
          startTime := ctx.startTime, duration := now - ctx.startTime
          traceId := ctx.traceId } }

/-- One wrapped `fetch` call as instrumented by `trackFetch`: it publishes the
`RequestStart` event, lets the underlying call settle with `outcome` at time
`now`, publishes the event built by `reportFetch`, and returns the original
promise's outcome unchanged (`return responsePromise`). -/
def trackFetchCall (ctx : FetchContext) (now : Nat) (outcome : FetchOutcome) :
    List RequestEvent × FetchOutcome :=
  ({ requestId := ctx.requestId
     kind := .Start
     details :=
       { type := .FETCH, method := ctx.method, url := ctx.url
         status := none, response := none, responseType := none
         startTime := ctx.startTime, duration := 0
         traceId := ctx.traceId } } ::
   [reportFetch ctx now outcome],
   outcome)

/-- C8: for every `RequestDetails` value, `isRejected` returns true iff the
status equals 0 and the response type is not "opaque", and `isServerError`
returns true iff the status is a number at least 500. -/
theorem isRejected_isServerError_characterization (request : RequestDetails) :
    (isRejected request = true ↔
      request.status = some 0 ∧ request.responseType ≠ some "opaque") ∧
    (isServerError request = true ↔ ∃ s, request.status = some s ∧ 500 ≤ s) := by
  constructor
  · simp [isRejected]
  · cases h : request.status with
    | none => simp [isServerError, h]
    | some s => simp [isServerError, h]

/-- C7: when the underlying fetch promise rejects, the wrapper publishes
exactly one `RequestEnd` event, carrying status 0 and the rendered stack
trace as its textual response, and returns the original outcome unchanged so
the caller still observes the rejection; and when reading a resolved
response's body throws, the read failure degrades to the placeholder text
`Unable to retrieve response: <e>` without preventing the `RequestEnd`
event. -/
theorem trackFetch_failure_reporting (ctx : FetchContext) (now : Nat) (error : JsError)
    (response : FetchResponse) (msg : String) :
    ((trackFetchCall ctx now (.rejected error)).1.filter
        (fun ev => ev.kind == RequestEventKind.End) =
      [reportFetch ctx now (.rejected error)]) ∧
    (reportFetch ctx now (.rejected error)).details.status = some 0 ∧
    (reportFetch ctx now (.rejected error)).details.response =
      some (toStackTraceString error) ∧
    (trackFetchCall ctx now (.rejected error)).2 = .rejected error ∧
    (reportFetch ctx now (.resolved { response with bodyText := .error msg })).details.response =
      some ("Unable to retrieve response: " ++ msg) ∧
    (reportFetch ctx now (.resolved { response with bodyText := .error msg })).kind =
      RequestEventKind.End := by
  exact ⟨rfl, rfl, rfl, rfl, rfl, rfl⟩

/-! ## Activity correlator (`trackPageChanges`, userActionCollection.ts) -/

/-- A performance-timeline entry as consumed by the correlator: its entry
type, whether it has an `initiatorType` property (and its value), and its
name (the empty string modelling a falsy `entry.name`). -/
structure PerfEntry where
  entryType : String
  initiatorType : Option String
  name : String
deriving DecidableEq

/-- The lifecycle-bus events `trackPageChanges` subscribes to:
`DOM_MUTATED`, `PERFORMANCE_ENTRY_COLLECTED` and `REQUEST_COLLECTED`. -/
inductive PageEvent where
  | domMutated
  | perfEntry (entry : PerfEntry)
  | request (requestEvent : RequestEvent)

/-- The payload `trackPageChanges` notifies on its own observable. -/
structure ChangeEvent where
  isBusy : Bool
  type : String
  details : Option (List String)
deriving DecidableEq

/-- The detail strings attached to a resource performance entry:
`initiatorType: <..>` when the property is present, then `name: <..>` when
the name is truthy. -/
def perfEntryDetails (entry : PerfEntry) : List String :=
  (match entry.initiatorType with
    | some it => ["initiatorType: " ++ it]
    | none => []) ++
  (if entry.name ≠ "" then ["name: " ++ entry.name] else [])

/-- One step of `trackPageChanges`: from the current pending-request set (the
keys of the `pendingRequests` map) and one incoming lifecycle event, the new
pending set and the (at most one) `ChangeEvent` notification.
`isBusy` is `pendingRequests.size > 0` evaluated at notify time. -/
def trackPageChangesStep (pendingRequests : List String) :
    PageEvent → List String × Option ChangeEvent
  | .domMutated =>
    (pendingRequests,
     some { isBusy := !pendingRequests.isEmpty, type := "dom_mutated", details := none })
  | .perfEntry entry =>
    if entry.entryType = "resource" then
      (pendingRequests,
       some { isBusy := !pendingRequests.isEmpty
              type := "performance_entry_collected"
              details := some (perfEntryDetails entry) })
    else
      (pendingRequests, none)
  | .request requestEvent =>
    match requestEvent.kind with
    | .Start =>
      let pending :=
        if requestEvent.requestId ∈ pendingRequests then pendingRequests
        else requestEvent.requestId :: pendingRequests
      (pending,
       some { isBusy := !pending.isEmpty
              type := "request_start"
              details := some ["Url: " ++ requestEvent.details.url] })
    | .End =>
      if requestEvent.requestId ∈ pendingRequests then
        let pending := pendingRequests.erase requestEvent.requestId
        (pending,
         some { isBusy := !pending.isEmpty
                type := "request_end"
                details := some ["Url: " ++ requestEvent.details.url] })
      else
        (pendingRequests, none)

/-- C5: the correlator notifies for a performance-timeline entry iff the
entry's type is "resource"; other entry types change nothing and notify
nothing, and a resource entry is reported as a
`performance_entry_collected` change with its detail strings, leaving the
pending set untouched. -/
theorem perfEntry_notifies_iff_resource (pendingRequests : List String) (entry : PerfEntry) :
    ((trackPageChangesStep pendingRequests (.perfEntry entry)).2.isSome = true ↔
      entry.entryType = "resource") ∧
    (trackPageChangesStep pendingRequests (.perfEntry entry)).1 = pendingRequests ∧
    (entry.entryType = "resource" →
      (trackPageChangesStep pendingRequests (.perfEntry entry)).2 =
        some { isBusy := !pendingRequests.isEmpty
               type := "performance_entry_collected"
               details := some (perfEntryDetails entry) }) := by
  by_cases h : entry.entryType = "resource" <;>
    simp [trackPageChangesStep, h]

/-- Witness for C5 at concrete entries: a "resource" entry notifies, a
"longtask" entry does not. -/
theorem perfEntry_notifies_iff_resource_witness :
    (trackPageChangesStep [] (.perfEntry ⟨"resource", some "xhr", "r1"⟩)).2 =
      some { isBusy := !(List.isEmpty ([] : List String))
             type := "performance_entry_collected"
             details := some (perfEntryDetails ⟨"resource", some "xhr", "r1"⟩) } ∧
    ((trackPageChangesStep ["a"] (.perfEntry ⟨"longtask", none, "t"⟩)).2.isSome = true ↔
      ("longtask" : String) = "resource") :=
  ⟨(perfEntry_notifies_iff_resource [] ⟨"resource", some "xhr", "r1"⟩).2.2 rfl,
   (perfEntry_notifies_iff_resource ["a"] ⟨"longtask", none, "t"⟩).1⟩

/-- C6: a `RequestEnd` for an id not in the pending-request set emits no
notification and leaves the set unchanged; a `RequestEnd` for a present id
removes it (so it is no longer in the set, removal happening at most once)
and emits exactly one `request_end` notification with the URL as detail. -/
theorem requestEnd_removes_at_most_once (pendingRequests : List String)
    (requestId url : String) (details : RequestDetails) :
    (requestId ∉ pendingRequests →
      trackPageChangesStep pendingRequests
          (.request { kind := .End, details := { details with url := url }, requestId := requestId }) =
        (pendingRequests, none)) ∧
    (pendingRequests.Nodup → requestId ∈ pendingRequests →
      trackPageChangesStep pendingRequests
          (.request { kind := .End, details := { details with url := url }, requestId := requestId }) =
        (pendingRequests.erase requestId,
         some { isBusy := !(pendingRequests.erase requestId).isEmpty
                type := "request_end"
                details := some ["Url: " ++ url] }) ∧
      requestId ∉ pendingRequests.erase requestId) := by
  constructor
  · intro h
    simp [trackPageChangesStep, h]
  · intro hnd h
    refine ⟨by simp [trackPageChangesStep, h], ?_⟩
    intro hmem
    exact (((List.Nodup.mem_erase_iff hnd).1 hmem).1) rfl

/-- Witness for C6 at a concrete pending set: an End for untracked "c" is
silent, an End for tracked "a" removes it exactly once and notifies. -/
theorem requestEnd_removes_at_most_once_witness :
    (trackPageChangesStep ["a", "b"]
        (.request { kind := .End
                    details := { type := .XHR, method := "GET", url := "u", status := none,
                                 response := none, responseType := none, startTime := 0,
                                 duration := 0, traceId := none }
                    requestId := "c" }) =
      (["a", "b"], none)) ∧
    (trackPageChangesStep ["a", "b"]
        (.request { kind := .End
                    details := { type := .XHR, method := "GET", url := "u", status := none,
                                 response := none, responseType := none, startTime := 0,
                                 duration := 0, traceId := none }
                    requestId := "a" }) =
      (List.erase ["a", "b"] "a",
       some { isBusy := !(List.erase ["a", "b"] "a").isEmpty
              type := "request_end"
              details := some ["Url: " ++ "u"] }) ∧
      "a" ∉ List.erase ["a", "b"] "a") :=
  ⟨(requestEnd_removes_at_most_once ["a", "b"] "c" "u"
      { type := .XHR, method := "GET", url := "u", status := none, response := none,
        responseType := none, startTime := 0, duration := 0, traceId := none }).1 (by decide),
   (requestEnd_removes_at_most_once ["a", "b"] "a" "u"
      { type := .XHR, method := "GET", url := "u", status := none, response := none,
        responseType := none, startTime := 0, duration := 0, traceId := none }).2
     (by decide) (by decide)⟩

/-! ## Element content extraction (userActionCollection.ts) -/

/-- JavaScript `String.prototype.trim`: whitespace stripped from both ends
(strings modelled as `List Char`). -/
def jsTrim (s : List Char) : List Char :=
  ((s.dropWhile Char.isWhitespace).reverse.dropWhile Char.isWhitespace).reverse

/-- `strLengthLimit`: a string longer than 400 characters is cut to its first
400 characters followed by `" [...]"`. -/
def strLengthLimit (s : List Char) : List Char :=
  if 400 < s.length then s.take 400 ++ " [...]".toList else s

/-- The per-element fields consulted by `iterateContentCandidates`:
`textContent`, the `type` attribute and `value` (for INPUT elements), and the
`aria-label`, `alt`, `title` and `placeholder` attributes. `none` models a
`null` text content / absent attribute. -/
structure ElementFields where
  tagName : String
  textContent : Option (List Char)
  typeAttr : Option String
  value : List Char
  ariaLabel : Option (List Char)
  alt : Option (List Char)
  title : Option (List Char)
  placeholder : Option (List Char)
deriving DecidableEq

/-- A DOM element with its chain of ancestors (`parentElement` is `none` for
`root`). -/
inductive DomElement where
  | root (fields : ElementFields)
  | child (fields : ElementFields) (parent : DomElement)
deriving DecidableEq

/-- The candidates one element contributes, in the order the generator yields
them: `textContent`; the `value` for an INPUT whose type attribute is
"button" or "submit"; then `aria-label`, `alt`, `title`, `placeholder`. -/
def ownCandidates (f : ElementFields) : List (Option (List Char)) :=
  [f.textContent] ++
  (if f.tagName = "INPUT" then
    (if f.typeAttr = some "button" ∨ f.typeAttr = some "submit" then [some f.value] else [])
  else []) ++
  [f.ariaLabel, f.alt, f.title, f.placeholder]

/-- `iterateContentCandidates`: the element's own candidates, then recursively
every candidate of each ancestor in turn. -/
def iterateContentCandidates : DomElement → List (Option (List Char))
  | .root f => ownCandidates f
  | .child f parent => ownCandidates f ++ iterateContentCandidates parent

/-- A candidate the `getElementContent` loop skips: a `null` (non-string)
value, or a string that trims to empty. -/
def isBlankCandidate : Option (List Char) → Bool
  | none => true
  | some s => (jsTrim s).isEmpty

/-- The search loop of `getElementContent` over an explicit candidate list:
skip non-strings and strings trimming to empty, return
`strLengthLimit` of the first non-blank trimmed candidate. -/
def firstContent : List (Option (List Char)) → Option (List Char)
  | [] => none
  | none :: rest => firstContent rest
  | some content :: rest =>
    if jsTrim content = [] then firstContent rest
    else some (strLengthLimit (jsTrim content))

/-- `getElementContent`: run the search loop over the element's candidate
iterator; `none` models the `undefined` fall-through. -/
def getElementContent (element : DomElement) : Option (List Char) :=
  firstContent (iterateContentCandidates element)

lemma firstContent_eq_none_iff (l : List (Option (List Char))) :
    firstContent l = none ↔ ∀ c ∈ l, isBlankCandidate c = true := by
  induction l with
  | nil => simp [firstContent]
  | cons c rest ih =>
    cases c with
    | none => simpa [firstContent, isBlankCandidate] using ih
    | some s =>
      by_cases h : jsTrim s = []
      · simpa [firstContent, h, isBlankCandidate, List.isEmpty_iff] using ih
      · simp [firstContent, h, isBlankCandidate, List.isEmpty_iff]

lemma firstContent_eq_some_iff (l : List (Option (List Char))) (r : List Char) :
    firstContent l = some r ↔
      ∃ pre c post, l = pre ++ some c :: post ∧
        (∀ x ∈ pre, isBlankCandidate x = true) ∧
        jsTrim c ≠ [] ∧ r = strLengthLimit (jsTrim c) := by
  induction l with
  | nil =>
    simp only [firstContent]
    constructor
    · intro h; cases h
    · rintro ⟨pre, c, post, heq, -⟩
      exact absurd heq (by simp)
  | cons c0 rest ih =>
    cases c0 with
    | none =>
      simp only [firstContent]
      rw [ih]
      constructor
      · rintro ⟨pre, c, post, heq, hpre, hc, hr⟩
        exact ⟨none :: pre, c, post, by simp [heq],
          by simpa [isBlankCandidate] using hpre, hc, hr⟩
      · rintro ⟨pre, c, post, heq, hpre, hc, hr⟩
        cases pre with
        | nil => simp at heq
        | cons p0 pre' =>
          simp only [List.cons_append, List.cons.injEq] at heq
          exact ⟨pre', c, post, heq.2, fun x hx => hpre x (by simp [hx]), hc, hr⟩
    | some s =>
      by_cases h : jsTrim s = []
      · simp only [firstContent, if_pos h]
        rw [ih]
        constructor
        · rintro ⟨pre, c, post, heq, hpre, hc, hr⟩
          refine ⟨some s :: pre, c, post, by simp [heq], ?_, hc, hr⟩
          intro x hx
          rcases List.mem_cons.1 hx with hx | hx
          · subst hx
            simp [isBlankCandidate, List.isEmpty_iff, h]
          · exact hpre x hx
        · rintro ⟨pre, c, post, heq, hpre, hc, hr⟩
          cases pre with
          | nil =>
            simp only [List.nil_append, List.cons.injEq, Option.some.injEq] at heq
            exact absurd (heq.1 ▸ h) hc
          | cons p0 pre' =>
            simp only [List.cons_append, List.cons.injEq] at heq
            exact ⟨pre', c, post, heq.2, fun x hx => hpre x (by simp [hx]), hc, hr⟩
      · simp only [firstContent, if_neg h]
        constructor
        · intro heq
          exact ⟨[], s, rest, rfl, by simp, h, by
            cases heq; rfl⟩
        · rintro ⟨pre, c, post, heq, hpre, hc, hr⟩
          cases pre with
          | nil =>
            simp only [List.nil_append, List.cons.injEq, Option.some.injEq] at heq
            rw [hr, heq.1]
          | cons p0 pre' =>
            simp only [List.cons_append, List.cons.injEq] at heq
            have := hpre p0 (by simp)
            rw [← heq.1] at this
            simp [isBlankCandidate, List.isEmpty_iff, h] at this

lemma strLengthLimit_length_le (s : List Char) : (strLengthLimit s).length ≤ 406 := by
  unfold strLengthLimit
  have h6 : (" [...]".toList).length = 6 := rfl
  by_cases h : 400 < s.length
  · simp only [if_pos h, List.length_append, List.length_take, h6]
    omega
  · simp only [if_neg h]
    omega

/-- C9: `getElementContent` returns (the trimmed, length-limited form of) the
first candidate string whose trimmed value is non-empty, where the candidates
are examined in the exact source order — own `textContent`, INPUT
button/submit `value`, `aria-label`, `alt`, `title`, `placeholder`, then the
same sequence for each ancestor in turn — and returns `undefined` (`none`)
when every candidate is a non-string or trims to empty. -/
theorem getElementContent_first_non_blank (element : DomElement) :
    (getElementContent element = none ↔
      ∀ c ∈ iterateContentCandidates element, isBlankCandidate c = true) ∧
    (∀ r, getElementContent element = some r ↔
      ∃ pre c post,
        iterateContentCandidates element = pre ++ some c :: post ∧
        (∀ x ∈ pre, isBlankCandidate x = true) ∧
        jsTrim c ≠ [] ∧ r = strLengthLimit (jsTrim c)) ∧
    (∀ f parent, iterateContentCandidates (.child f parent) =
        ownCandidates f ++ iterateContentCandidates parent) ∧
    (∀ f, ownCandidates f =
        [f.textContent] ++
        (if f.tagName = "INPUT" then
          (if f.typeAttr = some "button" ∨ f.typeAttr = some "submit" then [some f.value] else [])
        else []) ++
        [f.ariaLabel, f.alt, f.title, f.placeholder]) :=
  ⟨firstContent_eq_none_iff _, fun r => firstContent_eq_some_iff _ r,
   fun _ _ => rfl, fun _ => rfl⟩

/-- Witness for C9 at a concrete element: a span whose own `textContent` is
blank and whose `alt` attribute holds the first non-blank candidate, with a
non-empty ancestor `textContent` behind it. -/
theorem getElementContent_first_non_blank_witness :
    getElementContent
        (.child
          { tagName := "SPAN", textContent := some "  ".toList, typeAttr := none, value := []
            ariaLabel := none, alt := some "alt text".toList, title := none, placeholder := none }
          (.root
            { tagName := "DIV", textContent := some "parent".toList, typeAttr := none, value := []
              ariaLabel := none, alt := none, title := none, placeholder := none })) =
      some (strLengthLimit (jsTrim "alt text".toList)) :=
  ((getElementContent_first_non_blank _).2.1 _).2
    ⟨[some "  ".toList, none], "alt text".toList,
     [none, none, some "parent".toList, none, none, none, none],
     by decide, by decide, by decide, rfl⟩

/-- C10: every content string returned by `getElementContent` is
length-limited: it is `strLengthLimit` of the trimmed winning candidate, so
when the trimmed candidate exceeds 400 characters the result is its first
400 characters followed by `" [...]"`, otherwise the trimmed candidate
unchanged — and the result never exceeds 406 characters. -/
theorem getElementContent_length_limited (element : DomElement) (s : List Char)
    (h : getElementContent element = some s) :
    s.length ≤ 406 ∧
    ∃ c, jsTrim c ≠ [] ∧ s = strLengthLimit (jsTrim c) ∧
      (400 < (jsTrim c).length → s = (jsTrim c).take 400 ++ " [...]".toList) ∧
      ((jsTrim c).length ≤ 400 → s = jsTrim c) := by
  obtain ⟨pre, c, post, -, -, hc, hr⟩ := (firstContent_eq_some_iff _ _).1 h
  subst hr
  refine ⟨strLengthLimit_length_le _, c, hc, rfl, ?_, ?_⟩
  · intro hgt
    simp [strLengthLimit, hgt]
  · intro hle
    simp [strLengthLimit, Nat.not_lt.2 hle]

/-- Witness for C10 at a concrete element whose winning candidate is the
two-character string "hi". -/
theorem getElementContent_length_limited_witness :
    ("hi".toList).length ≤ 406 ∧
    ∃ c, jsTrim c ≠ [] ∧ "hi".toList = strLengthLimit (jsTrim c) ∧
      (400 < (jsTrim c).length → "hi".toList = (jsTrim c).take 400 ++ " [...]".toList) ∧
      ((jsTrim c).length ≤ 400 → "hi".toList = jsTrim c) :=
  getElementContent_length_limited
    (.root { tagName := "DIV", textContent := some "hi".toList, typeAttr := none, value := []
             ariaLabel := none, alt := none, title := none, placeholder := none })
    "hi".toList (by decide)

/-! ## Interaction detector (`newUserAction`, userActionCollection.ts) -/

/-- `IDLE_DELAY` (ms). -/
def IDLE_DELAY : Nat := 100

/-- `BUSY_DELAY` (ms). -/
def BUSY_DELAY : Nat := 100

/-- The events `newUserAction` publishes on its result observable, mirroring
`UserActionLifecycleKind` and the three payload interfaces. `Extended`
carries the activity time, the change reason and optional details; `Ended`
carries the time captured when its closure was created. -/
inductive UserActionLifecycleEvent where
  | Ended (id : String) (time : Nat)
  | Aborted (id : String) (time : Nat)
  | Extended (id : String) (time : Nat) (reason : String) (details : Option (List String))
deriving DecidableEq

/-- The externally observable effects of one interaction: events notified on
the result observable, and writes to the module-level `userActionId` cell. -/
inductive DetectorOutput where
  | published (event : UserActionLifecycleEvent)
  | setUserActionId (value : Option String)
deriving DecidableEq

/-- The timer configuration of a live interaction. The code keeps at most one
timer armed: the validation timer until the first activity signal, then —
after an idle activity signal — the idle timer, which remembers the
`performance.now()` value captured when the signal was processed. -/
inductive DetectorPhase where
  | awaitingActivity (validationDeadline : Nat)
  | openBusy
  | openIdle (idleDeadline : Nat) (lastActivity : Nat)

/-- The event loop of one interaction. The input is the stream of
`ChangeEvent` notifications from `trackPageChanges`, tagged with the
`performance.now()` value at delivery, in delivery order. A timer whose
deadline is not after the next signal fires first; firing either timer calls
`stop()`, so the remaining signals are never delivered. Each delivered signal
cancels both timers, publishes `Extended`, and re-arms the idle timer iff the
correlator is idle. The idle timer publishes `Ended` with the captured
activity time and clears `userActionId`; the validation timer publishes
`Aborted` at its fire time. -/
def runUserAction (id : String) : DetectorPhase → List (Nat × ChangeEvent) → List DetectorOutput
  | .awaitingActivity d, [] => [.published (.Aborted id d)]
  | .openBusy, [] => []
  | .openIdle _ lastActivity, [] =>
    [.published (.Ended id lastActivity), .setUserActionId none]
  | .awaitingActivity d, (t, ev) :: rest =>
    if d ≤ t then
      [.published (.Aborted id d)]
    else
      .published (.Extended id t ev.type ev.details) ::
        runUserAction id
          (if ev.isBusy then .openBusy else .openIdle (t + IDLE_DELAY) t) rest
  | .openBusy, (t, ev) :: rest =>
    .published (.Extended id t ev.type ev.details) ::
      runUserAction id
        (if ev.isBusy then .openBusy else .openIdle (t + IDLE_DELAY) t) rest
  | .openIdle d lastActivity, (t, ev) :: rest =>
    if d ≤ t then
      [.published (.Ended id lastActivity), .setUserActionId none]
    else
      .published (.Extended id t ev.type ev.details) ::
        runUserAction id
          (if ev.isBusy then .openBusy else .openIdle (t + IDLE_DELAY) t) rest

/-- `newUserAction` triggered at `triggerTime`: it synchronously sets the
module-level `userActionId` to the fresh id, arms the validation timer for
`BUSY_DELAY`, and then reacts to the change signals. -/
def newUserAction (id : String) (triggerTime : Nat)
    (signals : List (Nat × ChangeEvent)) : List DetectorOutput :=
  .setUserActionId (some id) ::
    runUserAction id (.awaitingActivity (triggerTime + BUSY_DELAY)) signals

/-- The lifecycle events notified on the result observable, in order. -/
def publishedOf (outputs : List DetectorOutput) : List UserActionLifecycleEvent :=
  outputs.filterMap fun o =>
    match o with
    | .published e => some e
    | .setUserActionId _ => none

/-- The value of the module-level `userActionId` cell after the effects in
`outputs`, starting from `init`. -/
def finalUserActionId (init : Option String) (outputs : List DetectorOutput) : Option String :=
  outputs.foldl
    (fun acc o =>
      match o with
      | .setUserActionId v => v
      | .published _ => acc)
    init

/-- Terminal events are `Ended` and `Aborted`; `Extended` is not. -/
def isTerminal : UserActionLifecycleEvent → Bool
  | .Ended _ _ => true
  | .Aborted _ _ => true
  | .Extended _ _ _ _ => false

/-- The context objects attached to the `USER_ACTION_COLLECTED` reports. -/
structure ReportContext where
  content : Option String
  element : Option String
  details : Option (List String)
  reason : Option String
deriving DecidableEq

/-- A `USER_ACTION_COLLECTED` payload, mirroring the three report shapes of
the click subscriber in `startUserActionCollection` (absent fields are
`none`). -/
structure UserActionReport where
  name : String
  startTime : Nat
  duration : Option Nat
  userActionId : Option String
  id : Option String
  context : ReportContext
deriving DecidableEq

/-- The click subscriber of `startUserActionCollection`: `Aborted` becomes a
"click ignored" report with the trigger context and no duration; `Extended`
becomes a "click extended" report with duration 0; `Ended` becomes a "click"
report whose duration is the event's time minus the click's start time. -/
def toReport (clickStartTime : Nat) (content element : Option String) :
    UserActionLifecycleEvent → UserActionReport
  | .Aborted id _ =>
    { name := "click ignored", startTime := clickStartTime, duration := none
      userActionId := some id, id := none
      context := { content := content, element := element, details := none, reason := none } }
  | .Extended id time reason details =>
    { name := "click extended", startTime := time, duration := some 0
      userActionId := some id, id := none
      context := { content := none, element := none, details := details, reason := some reason } }
  | .Ended id time =>
    { name := "click", startTime := clickStartTime, duration := some (time - clickStartTime)
      userActionId := none, id := some id
      context := { content := content, element := element, details := none, reason := none } }

/-- One click handled by `startUserActionCollection`: the element context is
captured, `startTime` is taken at the click, `newUserAction` runs, and every
published lifecycle event is turned into a report. -/
def collectUserAction (content element : Option String) (clickStartTime : Nat)
    (id : String) (signals : List (Nat × ChangeEvent)) : List UserActionReport :=
  (publishedOf (newUserAction id clickStartTime signals)).map
    (toReport clickStartTime content element)

lemma publishedOf_cons_published (e : UserActionLifecycleEvent) (l : List DetectorOutput) :
    publishedOf (.published e :: l) = e :: publishedOf l := rfl

lemma publishedOf_cons_setUserActionId (v : Option String) (l : List DetectorOutput) :
    publishedOf (.setUserActionId v :: l) = publishedOf l := rfl

lemma publishedOf_append (l1 l2 : List DetectorOutput) :
    publishedOf (l1 ++ l2) = publishedOf l1 ++ publishedOf l2 :=
  List.filterMap_append l1 l2 _

lemma publishedOf_map_published (evs : List UserActionLifecycleEvent) :
    publishedOf (evs.map .published) = evs := by
  induction evs with
  | nil => rfl
  | cons e evs ih =>
    simp only [List.map_cons, publishedOf_cons_published, ih]

lemma finalUserActionId_append (init : Option String) (l1 l2 : List DetectorOutput) :
    finalUserActionId init (l1 ++ l2) = finalUserActionId (finalUserActionId init l1) l2 :=
  List.foldl_append _ _ _ _

lemma finalUserActionId_map_published (init : Option String)
    (evs : List UserActionLifecycleEvent) :
    finalUserActionId init (evs.map .published) = init := by
  induction evs with
  | nil => rfl
  | cons e evs ih => exact ih

lemma mem_of_getLast?_eq_some {α : Type} {l : List α} {a : α}
    (h : l.getLast? = some a) : a ∈ l := by
  induction l with
  | nil => cases h
  | cons x l ih =>
    cases l with
    | nil =>
      simp only [List.getLast?_singleton, Option.some.injEq] at h
      simp [h]
    | cons y l =>
      rw [List.getLast?_cons_cons] at h
      exact List.mem_cons_of_mem x (ih h)

/-- Structure of every run of the detector loop: a block of `Extended`
notifications followed by at most one terminal block — nothing, a single
`Aborted` notification, or an `Ended` notification immediately followed by
the `userActionId` reset. -/
lemma runUserAction_shape (id : String) (signals : List (Nat × ChangeEvent)) :
    ∀ phase, ∃ (exts : List UserActionLifecycleEvent) (tail : List DetectorOutput),
      runUserAction id phase signals = exts.map DetectorOutput.published ++ tail ∧
      (∀ e ∈ exts, isTerminal e = false) ∧
      (tail = [] ∨ (∃ t, tail = [.published (.Aborted id t)]) ∨
        (∃ t, tail = [.published (.Ended id t), .setUserActionId none])) := by
  induction signals with
  | nil =>
    intro phase
    cases phase with
    | awaitingActivity d =>
      exact ⟨[], [.published (.Aborted id d)], rfl, by simp, Or.inr (Or.inl ⟨d, rfl⟩)⟩
    | openBusy =>
      exact ⟨[], [], rfl, by simp, Or.inl rfl⟩
    | openIdle d lastActivity =>
      exact ⟨[], [.published (.Ended id lastActivity), .setUserActionId none], rfl, by simp,
        Or.inr (Or.inr ⟨lastActivity, rfl⟩)⟩
  | cons sig rest ih =>
    obtain ⟨t, ev⟩ := sig
    intro phase
    cases phase with
    | awaitingActivity d =>
      by_cases h : d ≤ t
      · refine ⟨[], [.published (.Aborted id d)], ?_, by simp, Or.inr (Or.inl ⟨d, rfl⟩)⟩
        simp [runUserAction, h]
      · obtain ⟨exts, tail, heq, hexts, htail⟩ :=
          ih (if ev.isBusy then .openBusy else .openIdle (t + IDLE_DELAY) t)
        refine ⟨.Extended id t ev.type ev.details :: exts, tail, ?_, ?_, htail⟩
        · simp [runUserAction, h, heq]
        · intro e he
          rcases List.mem_cons.1 he with he | he
          · subst he; rfl
          · exact hexts e he
    | openBusy =>
      obtain ⟨exts, tail, heq, hexts, htail⟩ :=
        ih (if ev.isBusy then .openBusy else .openIdle (t + IDLE_DELAY) t)
      refine ⟨.Extended id t ev.type ev.details :: exts, tail, ?_, ?_, htail⟩
      · simp [runUserAction, heq]
      · intro e he
        rcases List.mem_cons.1 he with he | he
        · subst he; rfl
        · exact hexts e he
    | openIdle d lastActivity =>
      by_cases h : d ≤ t
      · refine ⟨[], [.published (.Ended id lastActivity), .setUserActionId none], ?_, by simp,
          Or.inr (Or.inr ⟨lastActivity, rfl⟩)⟩
        simp [runUserAction, h]
      · obtain ⟨exts, tail, heq, hexts, htail⟩ :=
          ih (if ev.isBusy then .openBusy else .openIdle (t + IDLE_DELAY) t)
        refine ⟨.Extended id t ev.type ev.details :: exts, tail, ?_, ?_, htail⟩
        · simp [runUserAction, h, heq]
        · intro e he
          rcases List.mem_cons.1 he with he | he
          · subst he; rfl
          · exact hexts e he

/-- C1: for every sequence of activity signals, the events published for one
interaction consist of non-terminal (`Extended`) observations followed by at
most one terminal event (`Aborted` or `Ended`): no second terminal and no
`Extended` after the terminal ever occurs. -/
theorem userAction_terminal_once_and_last (id : String) (triggerTime : Nat)
    (signals : List (Nat × ChangeEvent)) :
    ∃ (exts tail : List UserActionLifecycleEvent),
      publishedOf (newUserAction id triggerTime signals) = exts ++ tail ∧
      (∀ e ∈ exts, isTerminal e = false) ∧
      tail.length ≤ 1 ∧
      (∀ e ∈ tail, isTerminal e = true) := by
  obtain ⟨exts, tail, heq, hexts, htail⟩ :=
    runUserAction_shape id signals (.awaitingActivity (triggerTime + BUSY_DELAY))
  refine ⟨exts, publishedOf tail, ?_, hexts, ?_, ?_⟩
  · show publishedOf (runUserAction id (.awaitingActivity (triggerTime + BUSY_DELAY)) signals) =
      exts ++ publishedOf tail
    rw [heq, publishedOf_append, publishedOf_map_published]
  · rcases htail with rfl | ⟨u, rfl⟩ | ⟨u, rfl⟩ <;> simp [publishedOf]
  · rcases htail with rfl | ⟨u, rfl⟩ | ⟨u, rfl⟩ <;>
      simp [publishedOf, isTerminal]

/-- Witness for C1 at a concrete run (one idle activity signal at t=20). -/
theorem userAction_terminal_once_and_last_witness :
    ∃ (exts tail : List UserActionLifecycleEvent),
      publishedOf (newUserAction "w1" 0
          [(20, { isBusy := false, type := "dom_mutated", details := none })]) = exts ++ tail ∧
      (∀ e ∈ exts, isTerminal e = false) ∧
      tail.length ≤ 1 ∧
      (∀ e ∈ tail, isTerminal e = true) :=
  userAction_terminal_once_and_last "w1" 0
    [(20, { isBusy := false, type := "dom_mutated", details := none })]

/-- Counterexample to C3: in a run with no activity signal at all,
`userActionId` is already set to the interaction's id at trigger time (the
detector writes it synchronously in `newUserAction`, not on the first
activity signal), and after the `Aborted` terminal it still holds that id —
the Aborted path never clears it. -/
theorem userActionId_late_binding_counterexample :
    newUserAction "u3" 0 [] =
      [.setUserActionId (some "u3"), .published (.Aborted "u3" 100)] ∧
    finalUserActionId none (newUserAction "u3" 0 []) = some "u3" ∧
    (publishedOf (newUserAction "u3" 0 [])).getLast? = some (.Aborted "u3" 100) :=
  ⟨rfl, rfl, rfl⟩

/-- C3 as amended: `userActionId` is set to the interaction's id
synchronously at trigger (the first detector effect, before any activity
signal), and it is cleared back to `undefined` exactly when the interaction
ends with `Ended`; on `Aborted` (and while no terminal occurred) it keeps
the interaction's id. -/
theorem userActionId_set_at_trigger_cleared_on_end (id : String) (triggerTime : Nat)
    (signals : List (Nat × ChangeEvent)) (init : Option String) :
    (newUserAction id triggerTime signals).head? = some (.setUserActionId (some id)) ∧
    finalUserActionId init (newUserAction id triggerTime signals) =
      (match (publishedOf (newUserAction id triggerTime signals)).getLast? with
        | some (.Ended _ _) => none
        | _ => some id) := by
  refine ⟨rfl, ?_⟩
  obtain ⟨exts, tail, heq, hexts, htail⟩ :=
    runUserAction_shape id signals (.awaitingActivity (triggerTime + BUSY_DELAY))
  have hpub : publishedOf (newUserAction id triggerTime signals) = exts ++ publishedOf tail := by
    show publishedOf (runUserAction id (.awaitingActivity (triggerTime + BUSY_DELAY)) signals) =
      exts ++ publishedOf tail
    rw [heq, publishedOf_append, publishedOf_map_published]
  have hfin : finalUserActionId init (newUserAction id triggerTime signals) =
      finalUserActionId (some id) tail := by
    show finalUserActionId (some id)
        (runUserAction id (.awaitingActivity (triggerTime + BUSY_DELAY)) signals) =
      finalUserActionId (some id) tail
    rw [heq, finalUserActionId_append, finalUserActionId_map_published]
  rw [hfin, hpub]
  rcases htail with rfl | ⟨u, rfl⟩ | ⟨u, rfl⟩
  · have hnil : publishedOf ([] : List DetectorOutput) = [] := rfl
    rw [hnil, List.append_nil]
    cases hlast : exts.getLast? with
    | none => rfl
    | some e =>
      have hterm := hexts e (mem_of_getLast?_eq_some hlast)
      cases e with
      | Ended eid etime => exact absurd hterm (by simp [isTerminal])
      | Aborted eid etime => exact absurd hterm (by simp [isTerminal])
      | Extended eid etime ereason edetails => rfl
  · have hab : publishedOf [DetectorOutput.published (.Aborted id u)] =
        [UserActionLifecycleEvent.Aborted id u] := rfl
    rw [hab, List.getLast?_concat]
    rfl
  · have hen : publishedOf
        [DetectorOutput.published (.Ended id u), DetectorOutput.setUserActionId none] =
        [UserActionLifecycleEvent.Ended id u] := rfl
    rw [hen, List.getLast?_concat]
    rfl

/-- Witness for the amended C3 at a concrete aborted run: the first effect is
the id write and, since the run ends with `Aborted`, the cell keeps the id. -/
theorem userActionId_set_at_trigger_cleared_on_end_witness :
    (newUserAction "w3" 5 []).head? =
      some (DetectorOutput.setUserActionId (some "w3")) ∧
    finalUserActionId none (newUserAction "w3" 5 []) =
      (match (publishedOf (newUserAction "w3" 5 [])).getLast? with
        | some (.Ended _ _) => none
        | _ => some "w3") :=
  userActionId_set_at_trigger_cleared_on_end "w3" 5 [] none

/-- Counterexample to C2: trigger at t=0, a single idle activity signal at
t=20. The idle timer fires at t=120, but the `Ended` event carries the time
captured when the activity signal was processed (t=20), so the terminal
"click" report's duration is 20, not the 120 the claim states. -/
theorem endedReport_duration_counterexample :
    (collectUserAction none none 0 "u2"
        [(20, { isBusy := false, type := "dom_mutated", details := none })]).getLast? =
      some { name := "click", startTime := 0, duration := some 20
             userActionId := none, id := some "u2"
             context := { content := none, element := none, details := none, reason := none } } ∧
    some (20 : Nat) ≠ some 120 :=
  ⟨rfl, by decide⟩

lemma ended_tail_lift (id : String) (t : Nat) (ev : ChangeEvent)
    (exts : List UserActionLifecycleEvent) (u : Nat)
    (hu : (∃ r dd, exts.getLast? = some (.Extended id u r dd)) ∨
      (exts = [] ∧ ∃ d, (if ev.isBusy then DetectorPhase.openBusy
        else DetectorPhase.openIdle (t + IDLE_DELAY) t) = .openIdle d u)) :
    ∃ r dd, (UserActionLifecycleEvent.Extended id t ev.type ev.details :: exts).getLast? =
      some (.Extended id u r dd) := by
  rcases hu with ⟨r, dd, hlast⟩ | ⟨hnil, d, hphase⟩
  · refine ⟨r, dd, ?_⟩
    cases exts with
    | nil => cases hlast
    | cons e0 l =>
      rw [List.getLast?_cons_cons]
      exact hlast
  · subst hnil
    cases hb : ev.isBusy with
    | true =>
      rw [hb] at hphase
      simp at hphase
    | false =>
      rw [hb] at hphase
      simp at hphase
      refine ⟨ev.type, ev.details, ?_⟩
      rw [List.getLast?_singleton, hphase.2]

/-- Refinement of the run shape used for the duration claim: every published
`Extended` belongs to an activity signal, and when the run terminates with
`Ended id u`, the time `u` is the time of the last `Extended` published —
unless nothing was published at all, in which case the run began in the
`openIdle` phase with `u` as its remembered last-activity time. -/
lemma runUserAction_shape_ended (id : String) (signals : List (Nat × ChangeEvent)) :
    ∀ phase, ∃ (exts : List UserActionLifecycleEvent) (tail : List DetectorOutput),
      runUserAction id phase signals = exts.map DetectorOutput.published ++ tail ∧
      (∀ e ∈ exts, ∃ t r dd, e = .Extended id t r dd) ∧
      (tail = [] ∨ (∃ t, tail = [.published (.Aborted id t)]) ∨
        (∃ u, tail = [.published (.Ended id u), .setUserActionId none] ∧
          ((∃ r dd, exts.getLast? = some (.Extended id u r dd)) ∨
            (exts = [] ∧ ∃ d, phase = .openIdle d u)))) := by
  induction signals with
  | nil =>
    intro phase
    cases phase with
    | awaitingActivity d =>
      exact ⟨[], [.published (.Aborted id d)], rfl, by simp, Or.inr (Or.inl ⟨d, rfl⟩)⟩
    | openBusy =>
      exact ⟨[], [], rfl, by simp, Or.inl rfl⟩
    | openIdle d lastActivity =>
      exact ⟨[], [.published (.Ended id lastActivity), .setUserActionId none], rfl, by simp,
        Or.inr (Or.inr ⟨lastActivity, rfl, Or.inr ⟨rfl, d, rfl⟩⟩)⟩
  | cons sig rest ih =>
    obtain ⟨t, ev⟩ := sig
    intro phase
    cases phase with
    | awaitingActivity d =>
      by_cases h : d ≤ t
      · refine ⟨[], [.published (.Aborted id d)], ?_, by simp, Or.inr (Or.inl ⟨d, rfl⟩)⟩
        simp [runUserAction, h]
      · obtain ⟨exts, tail, heq, hexts, htail⟩ :=
          ih (if ev.isBusy then .openBusy else .openIdle (t + IDLE_DELAY) t)
        refine ⟨.Extended id t ev.type ev.details :: exts, tail, ?_, ?_, ?_⟩
        · simp [runUserAction, h, heq]
        · intro e he
          rcases List.mem_cons.1 he with he | he
          · exact ⟨t, ev.type, ev.details, he⟩
          · exact hexts e he
        · rcases htail with rfl | ⟨u, rfl⟩ | ⟨u, rfl, hu⟩
          · exact Or.inl rfl
          · exact Or.inr (Or.inl ⟨u, rfl⟩)
          · exact Or.inr (Or.inr ⟨u, rfl, Or.inl (ended_tail_lift id t ev exts u hu)⟩)
    | openBusy =>
      obtain ⟨exts, tail, heq, hexts, htail⟩ :=
        ih (if ev.isBusy then .openBusy else .openIdle (t + IDLE_DELAY) t)
      refine ⟨.Extended id t ev.type ev.details :: exts, tail, ?_, ?_, ?_⟩
      · simp [runUserAction, heq]
      · intro e he
        rcases List.mem_cons.1 he with he | he
        · exact ⟨t, ev.type, ev.details, he⟩
        · exact hexts e he
      · rcases htail with rfl | ⟨u, rfl⟩ | ⟨u, rfl, hu⟩
        · exact Or.inl rfl
        · exact Or.inr (Or.inl ⟨u, rfl⟩)
        · exact Or.inr (Or.inr ⟨u, rfl, Or.inl (ended_tail_lift id t ev exts u hu)⟩)
    | openIdle d lastActivity =>
      by_cases h : d ≤ t
      · refine ⟨[], [.published (.Ended id lastActivity), .setUserActionId none], ?_, by simp,
          Or.inr (Or.inr ⟨lastActivity, rfl, Or.inr ⟨rfl, d, rfl⟩⟩)⟩
        simp [runUserAction, h]
      · obtain ⟨exts, tail, heq, hexts, htail⟩ :=
          ih (if ev.isBusy then .openBusy else .openIdle (t + IDLE_DELAY) t)
        refine ⟨.Extended id t ev.type ev.details :: exts, tail, ?_, ?_, ?_⟩
        · simp [runUserAction, h, heq]
        · intro e he
          rcases List.mem_cons.1 he with he | he
          · exact ⟨t, ev.type, ev.details, he⟩
          · exact hexts e he
        · rcases htail with rfl | ⟨u, rfl⟩ | ⟨u, rfl, hu⟩
          · exact Or.inl rfl
          · exact Or.inr (Or.inl ⟨u, rfl⟩)
          · exact Or.inr (Or.inr ⟨u, rfl, Or.inl (ended_tail_lift id t ev exts u hu)⟩)

/-- C2 as amended: for every signal sequence whose interaction transitions to
`Ended` (the published trace ends with `Ended id endTime` after the
`Extended` observations `exts`), the time carried by the `Ended` event is the
time of the *last* activity signal — it equals the time of the last
`Extended` observation, since the idle-timer closure reuses the
`performance.now()` captured when that signal was processed — and the
terminal completed report is the "click" report whose duration is that
last-activity time minus the trigger time, not the idle-timer fire time
(which is `IDLE_DELAY` later) minus the trigger time. -/
theorem endedReport_duration_last_activity (id : String) (triggerTime : Nat)
    (content element : Option String) (signals : List (Nat × ChangeEvent))
    (exts : List UserActionLifecycleEvent) (endTime : Nat)
    (h : publishedOf (newUserAction id triggerTime signals) =
      exts ++ [.Ended id endTime]) :
    (∃ reason details, exts.getLast? = some (.Extended id endTime reason details)) ∧
    (collectUserAction content element triggerTime id signals).getLast? =
      some { name := "click", startTime := triggerTime
             duration := some (endTime - triggerTime)
             userActionId := none, id := some id
             context := { content := content, element := element, details := none
                          reason := none } } := by
  have hreport : (collectUserAction content element triggerTime id signals).getLast? =
      some (toReport triggerTime content element (.Ended id endTime)) := by
    unfold collectUserAction
    rw [h, List.map_append]
    exact List.getLast?_concat _
  refine ⟨?_, hreport⟩
  obtain ⟨exts', tail, heq, hexts', htail⟩ :=
    runUserAction_shape_ended id signals (.awaitingActivity (triggerTime + BUSY_DELAY))
  have hpub : publishedOf (newUserAction id triggerTime signals) = exts' ++ publishedOf tail := by
    show publishedOf (runUserAction id (.awaitingActivity (triggerTime + BUSY_DELAY)) signals) =
      exts' ++ publishedOf tail
    rw [heq, publishedOf_append, publishedOf_map_published]
  rw [hpub] at h
  rcases htail with rfl | ⟨u, rfl⟩ | ⟨u, rfl, hu⟩
  · have hnil : publishedOf ([] : List DetectorOutput) = [] := rfl
    rw [hnil, List.append_nil] at h
    have hmem : UserActionLifecycleEvent.Ended id endTime ∈ exts' := by
      rw [h]
      exact List.mem_append.2 (Or.inr (by simp))
    obtain ⟨v, r, dd, habs⟩ := hexts' _ hmem
    exact UserActionLifecycleEvent.noConfusion habs
  · have hab : publishedOf [DetectorOutput.published (.Aborted id u)] =
        [UserActionLifecycleEvent.Aborted id u] := rfl
    rw [hab] at h
    have h1 := congrArg List.getLast? h
    rw [List.getLast?_concat, List.getLast?_concat] at h1
    injection h1 with h2
    exact UserActionLifecycleEvent.noConfusion h2
  · have hen : publishedOf
        [DetectorOutput.published (.Ended id u), DetectorOutput.setUserActionId none] =
        [UserActionLifecycleEvent.Ended id u] := rfl
    rw [hen] at h
    have h1 := congrArg List.getLast? h
    rw [List.getLast?_concat, List.getLast?_concat] at h1
    injection h1 with h2
    injection h2 with hid htime
    obtain ⟨hexq, -⟩ := List.append_inj' h (by simp)
    subst hexq
    subst htime
    rcases hu with ⟨r, dd, hlast⟩ | ⟨-, d, habs⟩
    · exact ⟨r, dd, hlast⟩
    · exact DetectorPhase.noConfusion habs

/-- Witness for the amended C2 at a concrete two-activity run: trigger t=0,
idle activity signals at t=10 and t=20; the `Ended` time is the last-activity
time 20 and the terminal "click" report carries duration 20 (while the idle
timer only fires at t=120). -/
theorem endedReport_duration_last_activity_witness :
    (∃ reason details,
      ([UserActionLifecycleEvent.Extended "w2" 10 "dom_mutated" none,
        UserActionLifecycleEvent.Extended "w2" 20 "dom_mutated" none]).getLast? =
        some (.Extended "w2" 20 reason details)) ∧
    (collectUserAction none none 0 "w2"
        [(10, { isBusy := false, type := "dom_mutated", details := none }),
         (20, { isBusy := false, type := "dom_mutated", details := none })]).getLast? =
      some { name := "click", startTime := 0, duration := some (20 - 0)
             userActionId := none, id := some "w2"
             context := { content := none, element := none, details := none
                          reason := none } } :=
  endedReport_duration_last_activity "w2" 0 none none
    [(10, { isBusy := false, type := "dom_mutated", details := none }),
     (20, { isBusy := false, type := "dom_mutated", details := none })]
    [.Extended "w2" 10 "dom_mutated" none, .Extended "w2" 20 "dom_mutated" none]
    20 rfl

/-- C4: when no activity signal arrives before the validation deadline
(`BUSY_DELAY` after trigger), the interaction produces exactly one report: an
Aborted-shaped "click ignored" report carrying only the original trigger
context (content and element), with no duration and no `Extended` report. -/
theorem abortReport_when_no_early_activity (id : String) (triggerTime : Nat)
    (content element : Option String) (signals : List (Nat × ChangeEvent))
    (h : ∀ s ∈ signals, triggerTime + BUSY_DELAY ≤ s.1) :
    collectUserAction content element triggerTime id signals =
      [{ name := "click ignored", startTime := triggerTime, duration := none
         userActionId := some id, id := none
         context := { content := content, element := element, details := none
                      reason := none } }] := by
  unfold collectUserAction newUserAction
  cases signals with
  | nil => rfl
  | cons s rest =>
    obtain ⟨t, ev⟩ := s
    have ht : triggerTime + BUSY_DELAY ≤ t := h (t, ev) (by simp)
    simp [runUserAction, ht, publishedOf, toReport]

/-- Witness for C4: a signal arriving at t=200, after the t=100 validation
deadline, leaves only the "click ignored" report. -/
theorem abortReport_when_no_early_activity_witness :
    collectUserAction none none 0 "w4"
        [(200, { isBusy := false, type := "dom_mutated", details := none })] =
      [{ name := "click ignored", startTime := 0, duration := none
         userActionId := some "w4", id := none
         context := { content := none, element := none, details := none
                      reason := none } }] :=
  abortReport_when_no_early_activity "w4" 0 none none
    [(200, { isBusy := false, type := "dom_mutated", details := none })] (by decide)
